import Mathlib

/-!
Verification of the manual combat resolver (`BattleScreen.tsx`) of the
NextEra repository against its specification.

The resolver is a React component; its combat logic is a collection of
pure helpers (`computeDamage`, `computeRoundOrder`, `isBattleOver`,
`applyDamage`, `pushAction`) plus event handlers (`handleConfirmAction`,
`handleConfirmTarget`, `confirmFlee`) and an enemy-AI effect, all acting
on the component state (rosters, `defending` set, action log, `seq`
counter).  We embed that state as an explicit `BattleState` record and
each handler as a pure state-transformer.  JavaScript numbers on unit
stats are embedded as `Int`; `Math.floor (x / 2)` on integers is
`Int.fdiv x 2`.  The RNG draw `rng.int(-2, 2)` that `computeDamage`
performs internally is passed in as an explicit `variance` argument;
the seeding of that RNG is modelled separately by `battleRngSeed`.
-/

/-- Combat-time unit instance, after `BattleUnit` of the source.  The
source's `def` stat field is named `defense` here because `def` is a
Lean keyword. -/
structure BattleUnit where
  id : String
  isPlayer : Bool
  currentHp : Int
  maxHp : Int
  atk : Int
  defense : Int
  speed : Int
  originalIndex : Int
deriving DecidableEq

inductive ActionType
  | attack
  | defend
  | flee
deriving DecidableEq

/-- Sequence-numbered combat log record, after `CombatAction` of the
source: attacks carry `targetId` and `damage`, defend carries neither. -/
structure CombatAction where
  seq : Nat
  type : ActionType
  actorId : String
  targetId : Option String
  damage : Option Int
deriving DecidableEq

inductive Winner
  | player
  | enemy
  | draw
deriving DecidableEq

/-- The component state of one battle: the two mutable rosters, the
`defending` ref (a `Set<string>`, embedded as a duplicate-free list),
the `seq` counter and the append-only `actions` log. -/
structure BattleState where
  players : List BattleUnit
  enemies : List BattleUnit
  defending : List String
  seq : Nat
  actions : List CombatAction
deriving DecidableEq

/-- `players.filter(u => u.currentHp > 0)` — the `alivePlayers` /
`aliveEnemies` derived lists. -/
def aliveList (us : List BattleUnit) : List BattleUnit :=
  us.filter (fun u => decide (0 < u.currentHp))

/-- Initial roster cloning: `units.map(u => ({...u, currentHp: Math.max(0, u.currentHp)}))`. -/
def initUnits (us : List BattleUnit) : List BattleUnit :=
  us.map (fun u => { u with currentHp := max 0 u.currentHp })

/-- The state the component mounts with: clamped rosters, empty
`defending` set, `seq = 1`, empty log. -/
def initialBattleState (playerUnits enemyUnits : List BattleUnit) : BattleState :=
  { players := initUnits playerUnits
    enemies := initUnits enemyUnits
    defending := []
    seq := 1
    actions := [] }

/-- `computeDamage` of the source.  `Math.floor(attacker.atk -
defender.def / 2)` on integer stats is the floor of the rational
`(2*atk - def) / 2`, i.e. `Int.fdiv (2*atk - def) 2`; likewise
`Math.floor(dmg * 0.5)` is `Int.fdiv dmg 2`.  The internal draw
`rng.int(-2, 2)` is the `variance` argument; `defending.current.has
(defender.id)` is membership in the `defending` list. -/
def computeDamage (attacker defender : BattleUnit) (variance : Int)
    (defending : List String) : Int :=
  let base := Int.fdiv (2 * attacker.atk - defender.defense) 2
  let dmg := max 1 (base + variance)
  let dmg2 := if defending.contains defender.id then Int.fdiv dmg 2 else dmg
  max 1 dmg2

/-- `applyDamage` of the source: clamp the defender's HP at 0 in both
roster maps, then delete the defender from the `defending` set. -/
def applyDamage (defenderId : String) (amount : Int) (st : BattleState) : BattleState :=
  { st with
    players := st.players.map (fun u =>
      if u.id ≠ defenderId then u else { u with currentHp := max 0 (u.currentHp - amount) })
    enemies := st.enemies.map (fun u =>
      if u.id ≠ defenderId then u else { u with currentHp := max 0 (u.currentHp - amount) })
    defending := st.defending.filter (fun x => decide (x ≠ defenderId)) }

/-- `pushAction` of the source: append one record carrying the current
`seq`, then increment `seq`. -/
def pushAction (st : BattleState) (ty : ActionType) (actorId : String)
    (targetId : Option String) (damage : Option Int) : BattleState :=
  { st with
    actions := st.actions ++ [⟨st.seq, ty, actorId, targetId, damage⟩]
    seq := st.seq + 1 }

/-- The comparator of `computeRoundOrder`: `b.speed - a.speed`, then
player-before-enemy, then `a.originalIndex - b.originalIndex`.  `unitLE
a b` holds when the comparator allows `a` at or before `b`. -/
def unitLE (a b : BattleUnit) : Bool :=
  if b.speed ≠ a.speed then decide (b.speed < a.speed)
  else if a.isPlayer ≠ b.isPlayer then a.isPlayer
  else decide (a.originalIndex ≤ b.originalIndex)

/-- The sorted living-unit list of `computeRoundOrder` (before the
final `.map(u => u.id)`). -/
def roundOrderUnits (players enemies : List BattleUnit) : List BattleUnit :=
  (aliveList players ++ aliveList enemies).mergeSort unitLE

/-- `computeRoundOrder` of the source. -/
def computeRoundOrder (players enemies : List BattleUnit) : List String :=
  (roundOrderUnits players enemies).map (fun u => u.id)

/-- The termination check and its effect: `isBattleOver` computes
`playersDead` / `enemiesDead` from the alive lists, and the effect runs
`finishBattle('player')` when `enemiesDead`, else `finishBattle('enemy')`
when `playersDead`; otherwise the battle goes on (`none`). -/
def decideWinner (players enemies : List BattleUnit) : Option Winner :=
  let playersDead := (aliveList players).isEmpty
  let enemiesDead := (aliveList enemies).isEmpty
  if enemiesDead then some Winner.player
  else if playersDead then some Winner.enemy
  else none

/-- `findUnit` of the source: `players.find(...) ?? enemies.find(...)`. -/
def findUnit (st : BattleState) (uid : String) : Option BattleUnit :=
  match st.players.find? (fun u => u.id == uid) with
  | some u => some u
  | none => st.enemies.find? (fun u => u.id == uid)

/-- `true` exactly when `handleConfirmAction`'s guard passes: the actor
is found and `actor.isPlayer` holds. -/
def validPlayerActor (st : BattleState) (uid : String) : Bool :=
  match findUnit st uid with
  | some a => a.isPlayer
  | none => false

inductive PlayerCommand
  | attack (targetIndex : Nat)
  | defend
  | flee
deriving DecidableEq

/-- One externally-supplied player action, resolved as the source
resolves it: `handleConfirmAction` guards (actor found and a player;
for `Attack`, `aliveEnemies` non-empty) and dispatches; an attack then
runs `handleConfirmTarget` on `aliveEnemies[targetIndex]` (computing
damage, pushing the log record, applying damage), `Defend` adds the
actor to the `defending` set and pushes a damage-free record, and
`Flee` runs `confirmFlee`, i.e. `finishBattle('draw')`, pushing
nothing.  The second component is the termination decision the
post-action effect reaches (`none` = battle continues). -/
def handleCommand (st : BattleState) (actorId : String) (cmd : PlayerCommand)
    (variance : Int) : BattleState × Option Winner :=
  match findUnit st actorId with
  | none => (st, none)
  | some actor =>
    if actor.isPlayer = false then (st, none)
    else
      match cmd with
      | PlayerCommand.attack targetIndex =>
        let aliveEnemies := aliveList st.enemies
        if aliveEnemies.isEmpty then (st, none)
        else
          match aliveEnemies.get? targetIndex with
          | none => (st, none)
          | some target =>
            let dmg := computeDamage actor target variance st.defending
            let st1 := pushAction st ActionType.attack actor.id (some target.id) (some dmg)
            let st2 := applyDamage target.id dmg st1
            (st2, decideWinner st2.players st2.enemies)
      | PlayerCommand.defend =>
        let st1 := { st with
          defending := if st.defending.contains actor.id then st.defending
                       else st.defending ++ [actor.id] }
        let st2 := pushAction st1 ActionType.defend actor.id none none
        (st2, decideWinner st2.players st2.enemies)
      | PlayerCommand.flee => (st, some Winner.draw)

/-- The enemy-AI target choice: `[...alivePlayers].sort((a, b) =>
a.currentHp - b.currentHp)[0]` — stable ascending sort on `currentHp`,
then the first element. -/
def chooseEnemyTarget (players : List BattleUnit) : Option BattleUnit :=
  ((aliveList players).mergeSort (fun a b => decide (a.currentHp ≤ b.currentHp))).head?

/-- The enemy-AI effect body: pick the lowest-HP living player; with no
target, `finishBattle('enemy')`; otherwise compute damage, push the
attack record, apply damage, and let the effect re-check termination. -/
def enemyTurn (st : BattleState) (unit : BattleUnit) (variance : Int) :
    BattleState × Option Winner :=
  match chooseEnemyTarget st.players with
  | none => (st, some Winner.enemy)
  | some target =>
    let dmg := computeDamage unit target variance st.defending
    let st1 := pushAction st ActionType.attack unit.id (some target.id) (some dmg)
    let st2 := applyDamage target.id dmg st1
    (st2, decideWinner st2.players st2.enemies)

/-- The seed the source feeds to `makeRng` when creating the battle's
damage-variance stream: the expression at `rngRef` is
`makeRng(Date.now())`, so the seed is the wall-clock timestamp itself;
neither the run seed nor the encounter index occurs in it. -/
def battleRngSeed (wallClockNow : Int) : Int := wallClockNow

/-- The damage value the spec's words prescribe: `max(1, floor(atk -
def/2) + variance)`, halved (floored) when, and only when, the target
is flagged defending, with the overall minimum of 1 still applied. -/
def specDamage (atk defense variance : Int) (defendingFlag : Bool) : Int :=
  let raw := max 1 (Int.fdiv (2 * atk - defense) 2 + variance)
  if defendingFlag then max 1 (Int.fdiv raw 2) else raw

/-- All units of a roster are at HP 0 or below. -/
def allDead (us : List BattleUnit) : Prop := ∀ u ∈ us, u.currentHp ≤ 0

/-- The log invariant the claims speak about: the `seq` fields of the
`actions` log read `1, 2, ..., n` (strictly increasing, gapless) and
the `seq` counter holds the next number. -/
def goodLog (st : BattleState) : Prop :=
  st.actions.map (fun a => a.seq) = List.range' 1 st.actions.length ∧
  st.seq = st.actions.length + 1

theorem aliveList_isEmpty_iff (us : List BattleUnit) :
    (aliveList us).isEmpty = true ↔ allDead us := by
  simp only [aliveList, allDead, List.isEmpty_iff, List.filter_eq_nil_iff,
    decide_eq_true_eq]
  constructor <;> intro h u hu <;> have := h u hu <;> omega

theorem decideWinner_ne_draw (ps es : List BattleUnit) :
    decideWinner ps es ≠ some Winner.draw := by
  simp only [decideWinner]
  split_ifs <;> simp

/-- C1: the spec requires the battle damage-variance stream to be forked
deterministically from the run seed with no wall-clock entropy; the code
seeds it with the wall-clock timestamp (`makeRng(Date.now())`), directly
under its own comment calling the RNG deterministic.  Two runs that are
identical except for their start instants therefore construct their
variance streams from different seeds. -/
theorem C1_rng_seed_is_wallclock :
    battleRngSeed 1000 ≠ battleRngSeed 1001 := by decide

/-- Concrete attacker of the spec scenario (atk 10). -/
def scenarioAttacker : BattleUnit :=
  { id := "p1", isPlayer := true, currentHp := 20, maxHp := 20,
    atk := 10, defense := 3, speed := 5, originalIndex := 0 }

/-- Concrete defender of the spec scenario (def 4, hp 5). -/
def scenarioDefender : BattleUnit :=
  { id := "e1", isPlayer := false, currentHp := 5, maxHp := 5,
    atk := 4, defense := 4, speed := 4, originalIndex := 0 }

/-- C2: `computeDamage` realises exactly the specified formula — `max(1,
floor(atk - def/2) + v)`, halved and floored precisely when the defender
is flagged defending, with the minimum of 1 re-applied — and on the spec
scenario (atk 10 vs def 4, variance 0, not defending) it yields 8. -/
theorem C2_damage_formula :
    (∀ (a b : BattleUnit) (v : Int) (s : List String),
      computeDamage a b v s = specDamage a.atk b.defense v (s.contains b.id)) ∧
    computeDamage scenarioAttacker scenarioDefender 0 [] = 8 := by
  constructor
  · intro a b v s
    unfold computeDamage specDamage
    cases h : s.contains b.id
    · simp only [h, if_neg Bool.false_ne_true, Bool.false_eq_true, if_false]
      exact max_eq_right (le_max_left 1 _)
    · simp [h]
  · decide

/-- C3: for every attacker/defender pair, every variance value and
every defending set, the computed damage is at least 1. -/
theorem C3_damage_floor :
    ∀ (a b : BattleUnit) (v : Int) (s : List String), 1 ≤ computeDamage a b v s := by
  intro a b v s
  exact le_max_left 1 _

/-- Concrete roster and mounted state used to instantiate hypotheses of
several theorems below. -/
def exPlayer : BattleUnit :=
  { id := "p1", isPlayer := true, currentHp := 10, maxHp := 10,
    atk := 10, defense := 2, speed := 5, originalIndex := 0 }

def exEnemy : BattleUnit :=
  { id := "e1", isPlayer := false, currentHp := 5, maxHp := 5,
    atk := 4, defense := 4, speed := 3, originalIndex := 0 }

def exState : BattleState := initialBattleState [exPlayer] [exEnemy]

def exDamagedEnemy : BattleUnit := { exEnemy with currentHp := 0 }

/-- C8: applying damage to a unit removes it from the `defending` set
(the flag absorbs exactly the one hit), and leaves every other unit's
flag untouched. -/
theorem C8_defending_consumed :
    ∀ (st : BattleState) (did : String) (amt : Int),
      did ∉ (applyDamage did amt st).defending ∧
      (∀ x : String, x ∈ (applyDamage did amt st).defending ↔
        (x ∈ st.defending ∧ x ≠ did)) := by
  intro st did amt
  constructor
  · simp [applyDamage, List.mem_filter]
  · intro x
    simp [applyDamage, List.mem_filter]

/-- C10: every unit of the clamped initial rosters has non-negative HP,
and `applyDamage` keeps every unit's HP non-negative (the damaged unit
is clamped at 0, the others are untouched). -/
theorem C10_hp_nonneg :
    (∀ (us : List BattleUnit), ∀ u ∈ initUnits us, 0 ≤ u.currentHp) ∧
    (∀ (st : BattleState) (did : String) (amt : Int) (u : BattleUnit),
      (∀ w ∈ st.players, 0 ≤ w.currentHp) →
      (∀ w ∈ st.enemies, 0 ≤ w.currentHp) →
      (u ∈ (applyDamage did amt st).players ∨ u ∈ (applyDamage did amt st).enemies) →
      0 ≤ u.currentHp) := by
  constructor
  · intro us u hu
    simp only [initUnits, List.mem_map] at hu
    obtain ⟨w, _, rfl⟩ := hu
    exact le_max_left 0 _
  · intro st did amt u hp he hm
    have key : ∀ (w : BattleUnit), 0 ≤ w.currentHp →
        0 ≤ (if w.id ≠ did then w
             else { w with currentHp := max 0 (w.currentHp - amt) }).currentHp := by
      intro w hw
      by_cases hc : w.id ≠ did
      · simpa [hc] using hw
      · simp [hc]
    rcases hm with hm | hm
    · simp only [applyDamage, List.mem_map] at hm
      obtain ⟨w, hw, rfl⟩ := hm
      exact key w (hp w hw)
    · simp only [applyDamage, List.mem_map] at hm
      obtain ⟨w, hw, rfl⟩ := hm
      exact key w (he w hw)

/-- Witness for C10 at a concrete state: overkill damage on the enemy
leaves it at exactly 0 HP, not below. -/
theorem C10_hp_nonneg_witness : 0 ≤ exDamagedEnemy.currentHp :=
  C10_hp_nonneg.2 exState "e1" 99 exDamagedEnemy
    (by decide) (by decide) (Or.inr (by decide))

theorem handleCommand_ne_draw_of_ne_flee (st : BattleState) (aid : String)
    (cmd : PlayerCommand) (v : Int) (hc : cmd ≠ PlayerCommand.flee) :
    (handleCommand st aid cmd v).2 ≠ some Winner.draw := by
  unfold handleCommand
  split
  · simp
  · split
    · simp
    · cases cmd with
      | attack t =>
        dsimp only
        split
        · simp
        · split
          · simp
          · exact decideWinner_ne_draw _ _
      | defend => exact decideWinner_ne_draw _ _
      | flee => exact absurd rfl hc

theorem enemyTurn_ne_draw (st : BattleState) (u : BattleUnit) (v : Int) :
    (enemyTurn st u v).2 ≠ some Winner.draw := by
  unfold enemyTurn
  split
  · simp
  · exact decideWinner_ne_draw _ _

theorem flee_gives_draw (st : BattleState) (aid : String) (v : Int)
    (h : validPlayerActor st aid = true) :
    (handleCommand st aid PlayerCommand.flee v).2 = some Winner.draw := by
  unfold handleCommand
  unfold validPlayerActor at h
  cases hf : findUnit st aid with
  | none => rw [hf] at h; simp at h
  | some actor =>
    rw [hf] at h
    simp only [] at h
    simp [h]

theorem decideWinner_player_iff (ps es : List BattleUnit) :
    decideWinner ps es = some Winner.player ↔ allDead es := by
  simp only [decideWinner]
  split_ifs with h1 h2 <;> simp_all [← aliveList_isEmpty_iff]

theorem decideWinner_enemy_iff (ps es : List BattleUnit) :
    decideWinner ps es = some Winner.enemy ↔ (allDead ps ∧ ¬ allDead es) := by
  simp only [decideWinner]
  split_ifs with h1 h2 <;> simp_all [← aliveList_isEmpty_iff]

/-- A state in which both rosters are entirely at 0 HP. -/
def deadP : BattleUnit :=
  { id := "pd", isPlayer := true, currentHp := 0, maxHp := 10,
    atk := 5, defense := 2, speed := 4, originalIndex := 0 }

def deadE : BattleUnit :=
  { id := "ed", isPlayer := false, currentHp := 0, maxHp := 8,
    atk := 4, defense := 4, speed := 3, originalIndex := 0 }

/-- C4 counterexample: when both rosters are entirely at HP ≤ 0 (a
roster pair the component accepts at mount), the enemies-dead branch is
checked first and the battle ends with winner `player`, although every
player unit is at HP ≤ 0 — so "winner = enemy if and only if all player
units are at HP ≤ 0" fails there. -/
theorem C4_counterexample :
    deadP.currentHp ≤ 0 ∧
    decideWinner [deadP] [deadE] = some Winner.player ∧
    decideWinner [deadP] [deadE] ≠ some Winner.enemy := by
  decide

/-- C4 (amended): the battle ends with winner `player` exactly when all
enemies are at HP ≤ 0 — with this branch taking priority when both
sides are wiped out; with winner `enemy` exactly when all player units
are at HP ≤ 0 and some enemy is still alive; the post-action check
never yields a draw; a flee submitted by a valid player actor ends the
battle with winner `draw`; and no command other than flee (nor any
enemy turn) can produce a draw. -/
theorem C4_termination :
    ∀ (ps es : List BattleUnit) (st : BattleState) (aid : String)
      (cmd : PlayerCommand) (u : BattleUnit) (v : Int),
      (decideWinner ps es = some Winner.player ↔ allDead es) ∧
      (decideWinner ps es = some Winner.enemy ↔ (allDead ps ∧ ¬ allDead es)) ∧
      decideWinner ps es ≠ some Winner.draw ∧
      (validPlayerActor st aid = true →
        (handleCommand st aid PlayerCommand.flee v).2 = some Winner.draw) ∧
      ((handleCommand st aid cmd v).2 = some Winner.draw → cmd = PlayerCommand.flee) ∧
      (enemyTurn st u v).2 ≠ some Winner.draw := by
  intro ps es st aid cmd u v
  refine ⟨decideWinner_player_iff ps es, decideWinner_enemy_iff ps es,
    decideWinner_ne_draw ps es, flee_gives_draw st aid v, ?_, enemyTurn_ne_draw st u v⟩
  intro h
  by_cases hc : cmd = PlayerCommand.flee
  · exact hc
  · exact absurd h (handleCommand_ne_draw_of_ne_flee st aid cmd v hc)

/-- Witness for C4 at a concrete state: the mounted example state has a
valid player actor, and their flee ends the battle as a draw. -/
theorem C4_termination_witness :
    (handleCommand exState "p1" PlayerCommand.flee 0).2 = some Winner.draw :=
  (C4_termination [] [] exState "p1" PlayerCommand.flee exPlayer 0).2.2.2.1 (by decide)

/-- A mounted state whose only enemy is already at 0 HP, with a living
player actor. -/
def nineState : BattleState :=
  { players := [exPlayer], enemies := [exDamagedEnemy],
    defending := [], seq := 1, actions := [] }

/-- C9 counterexample: submitting an attack while no living target
exists makes `handleConfirmAction` return early — the output is the
input state unchanged (same rosters, same log, no battle-ending signal)
and the handler has no error channel at all, so no explicit error
result is reported; the failure is silently swallowed. -/
theorem C9_counterexample :
    validPlayerActor nineState "p1" = true ∧
    aliveList nineState.enemies = [] ∧
    handleCommand nineState "p1" (PlayerCommand.attack 0) 0 = (nineState, none) := by
  decide

/-- C9 (amended): when an attack is submitted with no living targets,
the resolver mutates nothing and logs nothing — it returns the state
unchanged with no signal of any kind, rather than reporting an explicit
error result. -/
theorem C9_no_target_is_silent_noop :
    ∀ (st : BattleState) (aid : String) (tIdx : Nat) (v : Int),
      aliveList st.enemies = [] →
      handleCommand st aid (PlayerCommand.attack tIdx) v = (st, none) := by
  intro st aid tIdx v h
  unfold handleCommand
  cases hf : findUnit st aid with
  | none => rfl
  | some actor =>
    by_cases hp : actor.isPlayer = false
    · simp [hp]
    · simp [hp, h]

theorem C9_no_target_witness :
    handleCommand nineState "p1" (PlayerCommand.attack 3) 0 = (nineState, none) :=
  C9_no_target_is_silent_noop nineState "p1" 3 0 (by decide)

theorem goodLog_congr (st st' : BattleState) (ha : st'.actions = st.actions)
    (hs : st'.seq = st.seq) (h : goodLog st) : goodLog st' := by
  unfold goodLog at *
  rw [ha, hs]
  exact h

theorem goodLog_append (st st' : BattleState) (a : CombatAction)
    (ha : st'.actions = st.actions ++ [a]) (hseq : a.seq = st.seq)
    (hs : st'.seq = st.seq + 1) (h : goodLog st) : goodLog st' := by
  obtain ⟨h1, h2⟩ := h
  constructor
  · rw [ha, List.map_append, h1, List.length_append]
    simp only [List.map_cons, List.map_nil, List.length_cons, List.length_nil,
      Nat.zero_add, List.range'_concat, Nat.one_mul]
    rw [hseq, h2]
    simp [Nat.add_comm]
  · rw [hs, ha, h2, List.length_append]
    simp

theorem handleCommand_log_shape (st : BattleState) (aid : String)
    (cmd : PlayerCommand) (v : Int) :
    ((handleCommand st aid cmd v).1.actions = st.actions ∧
      (handleCommand st aid cmd v).1.seq = st.seq) ∨
    (∃ a : CombatAction, (handleCommand st aid cmd v).1.actions = st.actions ++ [a] ∧
      a.seq = st.seq ∧ (handleCommand st aid cmd v).1.seq = st.seq + 1 ∧
      ((a.type = ActionType.attack ∧ ∃ d : Int, a.damage = some d) ∨
       (a.type = ActionType.defend ∧ a.damage = none))) := by
  unfold handleCommand
  split
  · exact Or.inl ⟨rfl, rfl⟩
  · rename_i actor hfind
    split
    · exact Or.inl ⟨rfl, rfl⟩
    · cases cmd with
      | attack t =>
        dsimp only
        split
        · exact Or.inl ⟨rfl, rfl⟩
        · split
          · exact Or.inl ⟨rfl, rfl⟩
          · rename_i target hget
            exact Or.inr ⟨⟨st.seq, ActionType.attack, actor.id, some target.id,
              some (computeDamage actor target v st.defending)⟩, rfl, rfl, rfl,
              Or.inl ⟨rfl, ⟨computeDamage actor target v st.defending, rfl⟩⟩⟩
      | defend =>
        exact Or.inr ⟨⟨st.seq, ActionType.defend, actor.id, none, none⟩, rfl, rfl, rfl,
          Or.inr ⟨rfl, rfl⟩⟩
      | flee => exact Or.inl ⟨rfl, rfl⟩

theorem enemyTurn_log_shape (st : BattleState) (u : BattleUnit) (v : Int) :
    ((enemyTurn st u v).1.actions = st.actions ∧ (enemyTurn st u v).1.seq = st.seq) ∨
    (∃ a : CombatAction, (enemyTurn st u v).1.actions = st.actions ++ [a] ∧
      a.seq = st.seq ∧ (enemyTurn st u v).1.seq = st.seq + 1 ∧
      a.type = ActionType.attack ∧ ∃ d : Int, a.damage = some d) := by
  unfold enemyTurn
  split
  · exact Or.inl ⟨rfl, rfl⟩
  · rename_i target hchoose
    exact Or.inr ⟨⟨st.seq, ActionType.attack, u.id, some target.id,
      some (computeDamage u target v st.defending)⟩, rfl, rfl, rfl, rfl,
      ⟨computeDamage u target v st.defending, rfl⟩⟩

theorem handleCommand_flee_actions (st : BattleState) (aid : String) (v : Int) :
    (handleCommand st aid PlayerCommand.flee v).1.actions = st.actions := by
  unfold handleCommand
  split
  · rfl
  · split
    · rfl
    · rfl

theorem handleCommand_defend_appends (st : BattleState) (aid : String) (v : Int)
    (h : validPlayerActor st aid = true) :
    ∃ a : CombatAction,
      (handleCommand st aid PlayerCommand.defend v).1.actions = st.actions ++ [a] ∧
      a.seq = st.seq ∧
      (handleCommand st aid PlayerCommand.defend v).1.seq = st.seq + 1 ∧
      a.type = ActionType.defend ∧ a.damage = none := by
  unfold handleCommand
  unfold validPlayerActor at h
  cases hf : findUnit st aid with
  | none => rw [hf] at h; simp at h
  | some actor =>
    rw [hf] at h
    simp only [] at h
    dsimp only
    rw [if_neg (by simp [h])]
    exact ⟨⟨st.seq, ActionType.defend, actor.id, none, none⟩, rfl, rfl, rfl, rfl, rfl⟩

theorem handleCommand_attack_appends (st : BattleState) (aid : String)
    (tIdx : Nat) (v : Int) (target : BattleUnit)
    (h : validPlayerActor st aid = true)
    (ht : (aliveList st.enemies).get? tIdx = some target) :
    ∃ a : CombatAction,
      (handleCommand st aid (PlayerCommand.attack tIdx) v).1.actions = st.actions ++ [a] ∧
      a.seq = st.seq ∧
      (handleCommand st aid (PlayerCommand.attack tIdx) v).1.seq = st.seq + 1 ∧
      a.type = ActionType.attack ∧ ∃ d : Int, a.damage = some d := by
  have hne : ¬ ((aliveList st.enemies).isEmpty = true) := by
    intro he
    rw [List.isEmpty_iff] at he
    rw [he] at ht
    simp at ht
  unfold handleCommand
  unfold validPlayerActor at h
  cases hf : findUnit st aid with
  | none => rw [hf] at h; simp at h
  | some actor =>
    rw [hf] at h
    simp only [] at h
    dsimp only
    rw [if_neg (by simp [h])]
    rw [if_neg hne, ht]
    exact ⟨⟨st.seq, ActionType.attack, actor.id, some target.id,
      some (computeDamage actor target v st.defending)⟩, rfl, rfl, rfl, rfl,
      ⟨computeDamage actor target v st.defending, rfl⟩⟩

theorem enemyTurn_appends (st : BattleState) (u : BattleUnit) (v : Int)
    (target : BattleUnit) (h : chooseEnemyTarget st.players = some target) :
    ∃ a : CombatAction,
      (enemyTurn st u v).1.actions = st.actions ++ [a] ∧
      a.seq = st.seq ∧ (enemyTurn st u v).1.seq = st.seq + 1 ∧
      a.type = ActionType.attack ∧ ∃ d : Int, a.damage = some d := by
  unfold enemyTurn
  rw [h]
  exact ⟨⟨st.seq, ActionType.attack, u.id, some target.id,
    some (computeDamage u target v st.defending)⟩, rfl, rfl, rfl, rfl,
    ⟨computeDamage u target v st.defending, rfl⟩⟩

/-- C5 counterexample: a resolved flee — valid player actor, and the
battle really ends with winner `draw` — appends no record at all to the
`actions` log, not "exactly one Combat Action record". -/
theorem C5_counterexample :
    validPlayerActor exState "p1" = true ∧
    (handleCommand exState "p1" PlayerCommand.flee 0).2 = some Winner.draw ∧
    (handleCommand exState "p1" PlayerCommand.flee 0).1.actions = [] := by
  decide

/-- C5 (amended): every resolved action appends exactly one record
carrying the next sequence number — a defend whose actor guard passes,
an attack whose actor guard passes and whose chosen living target
exists, and an enemy attack with a chosen target each append exactly
one record with `seq` equal to the counter, which is then incremented —
so a log whose `seq` fields read 1, 2, ..., n keeps that shape
(strictly increasing, gapless) across every player command and every
enemy turn; no step ever appends more than one record; attack records
always carry a `damage` field while defend records never do; a flee,
however, appends no record at all. -/
theorem C5_log_discipline :
    ∀ (st : BattleState) (aid : String) (cmd : PlayerCommand) (u : BattleUnit) (v : Int),
      (goodLog st → goodLog (handleCommand st aid cmd v).1) ∧
      (goodLog st → goodLog (enemyTurn st u v).1) ∧
      (handleCommand st aid PlayerCommand.flee v).1.actions = st.actions ∧
      ((handleCommand st aid cmd v).1.actions = st.actions ∨
        (∃ a : CombatAction, (handleCommand st aid cmd v).1.actions = st.actions ++ [a] ∧
          a.seq = st.seq ∧ (handleCommand st aid cmd v).1.seq = st.seq + 1 ∧
          ((a.type = ActionType.attack ∧ ∃ d : Int, a.damage = some d) ∨
           (a.type = ActionType.defend ∧ a.damage = none)))) ∧
      ((enemyTurn st u v).1.actions = st.actions ∨
        (∃ a : CombatAction, (enemyTurn st u v).1.actions = st.actions ++ [a] ∧
          a.seq = st.seq ∧ (enemyTurn st u v).1.seq = st.seq + 1 ∧
          a.type = ActionType.attack ∧ ∃ d : Int, a.damage = some d)) ∧
      (validPlayerActor st aid = true →
        ∃ a : CombatAction,
          (handleCommand st aid PlayerCommand.defend v).1.actions = st.actions ++ [a] ∧
          a.seq = st.seq ∧
          (handleCommand st aid PlayerCommand.defend v).1.seq = st.seq + 1 ∧
          a.type = ActionType.defend ∧ a.damage = none) ∧
      (∀ (tIdx : Nat) (target : BattleUnit),
        validPlayerActor st aid = true →
        (aliveList st.enemies).get? tIdx = some target →
        ∃ a : CombatAction,
          (handleCommand st aid (PlayerCommand.attack tIdx) v).1.actions = st.actions ++ [a] ∧
          a.seq = st.seq ∧
          (handleCommand st aid (PlayerCommand.attack tIdx) v).1.seq = st.seq + 1 ∧
          a.type = ActionType.attack ∧ ∃ d : Int, a.damage = some d) ∧
      (∀ target : BattleUnit,
        chooseEnemyTarget st.players = some target →
        ∃ a : CombatAction,
          (enemyTurn st u v).1.actions = st.actions ++ [a] ∧
          a.seq = st.seq ∧ (enemyTurn st u v).1.seq = st.seq + 1 ∧
          a.type = ActionType.attack ∧ ∃ d : Int, a.damage = some d) := by
  intro st aid cmd u v
  refine ⟨?_, ?_, handleCommand_flee_actions st aid v, ?_, ?_,
    handleCommand_defend_appends st aid v,
    fun tIdx target h ht => handleCommand_attack_appends st aid tIdx v target h ht,
    fun target h => enemyTurn_appends st u v target h⟩
  · intro h
    rcases handleCommand_log_shape st aid cmd v with ⟨ha, hs⟩ | ⟨a, ha, hseq, hs, _⟩
    · exact goodLog_congr st _ ha hs h
    · exact goodLog_append st _ a ha hseq hs h
  · intro h
    rcases enemyTurn_log_shape st u v with ⟨ha, hs⟩ | ⟨a, ha, hseq, hs, _⟩
    · exact goodLog_congr st _ ha hs h
    · exact goodLog_append st _ a ha hseq hs h
  · rcases handleCommand_log_shape st aid cmd v with ⟨ha, _⟩ | ⟨a, ha, hseq, hs, htype⟩
    · exact Or.inl ha
    · exact Or.inr ⟨a, ha, hseq, hs, htype⟩
  · rcases enemyTurn_log_shape st u v with ⟨ha, _⟩ | ⟨a, ha, hseq, hs, ht, hd⟩
    · exact Or.inl ha
    · exact Or.inr ⟨a, ha, hseq, hs, ht, hd⟩

/-- Witness for C5 at a concrete state: the freshly mounted example
state satisfies the log invariant, it is preserved across a resolved
defend action, and that resolved defend really appends exactly one
damage-free record carrying the next sequence number. -/
theorem C5_log_discipline_witness :
    goodLog (handleCommand exState "p1" PlayerCommand.defend 0).1 ∧
    (∃ a : CombatAction,
      (handleCommand exState "p1" PlayerCommand.defend 0).1.actions =
        exState.actions ++ [a] ∧
      a.seq = exState.seq ∧
      (handleCommand exState "p1" PlayerCommand.defend 0).1.seq = exState.seq + 1 ∧
      a.type = ActionType.defend ∧ a.damage = none) :=
  ⟨(C5_log_discipline exState "p1" PlayerCommand.defend exEnemy 0).1 ⟨rfl, rfl⟩,
   (C5_log_discipline exState "p1" PlayerCommand.defend exEnemy 0).2.2.2.2.2.1 (by decide)⟩

theorem unitLE_iff (a b : BattleUnit) : unitLE a b = true ↔
    (b.speed < a.speed ∨ (a.speed = b.speed ∧
      ((a.isPlayer = true ∧ b.isPlayer = false) ∨
       (a.isPlayer = b.isPlayer ∧ a.originalIndex ≤ b.originalIndex)))) := by
  unfold unitLE
  split_ifs with h1 h2
  · simp only [decide_eq_true_eq]
    constructor
    · exact fun h => Or.inl h
    · rintro (h | ⟨heq, _⟩)
      · exact h
      · exact absurd heq.symm h1
  · cases ha : a.isPlayer <;> cases hb : b.isPlayer <;> simp_all
  · simp only [decide_eq_true_eq]
    cases ha : a.isPlayer <;> cases hb : b.isPlayer <;> simp_all
  
theorem unitLE_total (a b : BattleUnit) : (unitLE a b || unitLE b a) = true := by
  cases ha : a.isPlayer <;> cases hb : b.isPlayer <;>
    simp only [Bool.or_eq_true, unitLE_iff, ha, hb] <;> simp <;> omega

theorem unitLE_trans (a b c : BattleUnit) (h1 : unitLE a b = true) (h2 : unitLE b c = true) :
    unitLE a c = true := by
  rw [unitLE_iff] at *
  cases ha : a.isPlayer <;> cases hb : b.isPlayer <;> cases hc : c.isPlayer <;>
    simp_all <;> omega

/-- C6: the round order is the living units of both rosters — nothing
else — arranged so that every unit weakly precedes the next under the
comparator, and that comparator is exactly the claimed RNG-free total
order: descending speed, then player-before-enemy, then ascending
original roster index; `computeRoundOrder` is its id projection. -/
theorem C6_initiative_order :
    ∀ (ps es : List BattleUnit),
      List.Pairwise (fun a b => unitLE a b = true) (roundOrderUnits ps es) ∧
      (roundOrderUnits ps es).Perm (aliveList ps ++ aliveList es) ∧
      computeRoundOrder ps es = (roundOrderUnits ps es).map (fun u => u.id) ∧
      (∀ u ∈ roundOrderUnits ps es, 0 < u.currentHp) ∧
      (∀ a b : BattleUnit, unitLE a b = true ↔
        (b.speed < a.speed ∨ (a.speed = b.speed ∧
          ((a.isPlayer = true ∧ b.isPlayer = false) ∨
           (a.isPlayer = b.isPlayer ∧ a.originalIndex ≤ b.originalIndex))))) := by
  intro ps es
  refine ⟨?_, ?_, rfl, ?_, unitLE_iff⟩
  · exact List.sorted_mergeSort unitLE_trans unitLE_total (aliveList ps ++ aliveList es)
  · exact List.mergeSort_perm _ _
  · intro u hu
    have hmem := (List.mergeSort_perm (aliveList ps ++ aliveList es) unitLE).mem_iff.mp hu
    rcases List.mem_append.mp hmem with h | h <;>
      · simp only [aliveList, List.mem_filter, decide_eq_true_eq] at h
        exact h.2

/-- Witness for C6 at a concrete roster: the player unit appears in the
computed order and is alive. -/
theorem C6_initiative_order_witness : 0 < exPlayer.currentHp :=
  (C6_initiative_order [exPlayer] [exEnemy]).2.2.2.1 exPlayer
    ((List.mergeSort_perm (aliveList [exPlayer] ++ aliveList [exEnemy]) unitLE).mem_iff.mpr
      (by decide))

theorem hpLE_trans : ∀ (a b c : BattleUnit),
    decide (a.currentHp ≤ b.currentHp) = true →
    decide (b.currentHp ≤ c.currentHp) = true →
    decide (a.currentHp ≤ c.currentHp) = true := by
  intro a b c h1 h2
  simp only [decide_eq_true_eq] at *
  omega

theorem hpLE_total : ∀ (a b : BattleUnit),
    (decide (a.currentHp ≤ b.currentHp) || decide (b.currentHp ≤ a.currentHp)) = true := by
  intro a b
  simp only [Bool.or_eq_true, decide_eq_true_eq]
  omega

/-- C7: whenever the enemy-AI target choice yields a unit, that unit
comes from the player roster (the choice only ever consults the player
list, so it can target neither an enemy nor anything else), it is
alive, and its current HP is minimal among all living player units. -/
theorem C7_enemy_target_lowest_hp :
    ∀ (ps : List BattleUnit) (t : BattleUnit),
      chooseEnemyTarget ps = some t →
      t ∈ ps ∧ 0 < t.currentHp ∧
      ∀ u ∈ ps, 0 < u.currentHp → t.currentHp ≤ u.currentHp := by
  intro ps t h
  unfold chooseEnemyTarget at h
  cases hs : (aliveList ps).mergeSort (fun a b => decide (a.currentHp ≤ b.currentHp)) with
  | nil => rw [hs] at h; simp at h
  | cons x xs =>
    rw [hs] at h
    simp only [List.head?_cons, Option.some.injEq] at h
    subst h
    have hperm := List.mergeSort_perm (aliveList ps)
      (fun a b => decide (a.currentHp ≤ b.currentHp))
    rw [hs] at hperm
    have hsort := List.sorted_mergeSort hpLE_trans hpLE_total (aliveList ps)
    rw [hs] at hsort
    have hx : x ∈ aliveList ps := hperm.mem_iff.mp (List.mem_cons_self x xs)
    simp only [aliveList, List.mem_filter, decide_eq_true_eq] at hx
    refine ⟨hx.1, hx.2, ?_⟩
    intro u hu hual
    have humem : u ∈ x :: xs := hperm.mem_iff.mpr
      (by simp only [aliveList, List.mem_filter, decide_eq_true_eq]; exact ⟨hu, hual⟩)
    rcases List.mem_cons.mp humem with rfl | humem'
    · exact le_refl _
    · have hle := (List.pairwise_cons.mp hsort).1 u humem'
      simpa using hle

/-- Witness for C7 at a concrete roster: with one living player unit,
the AI picks exactly that unit. -/
theorem C7_enemy_target_witness :
    exPlayer ∈ [exPlayer] ∧ 0 < exPlayer.currentHp := by
  have ha : aliveList [exPlayer] = [exPlayer] := by decide
  have h : chooseEnemyTarget [exPlayer] = some exPlayer := by
    unfold chooseEnemyTarget
    rw [ha, List.mergeSort_singleton]
    rfl
  exact ⟨(C7_enemy_target_lowest_hp [exPlayer] exPlayer h).1,
    (C7_enemy_target_lowest_hp [exPlayer] exPlayer h).2.1⟩

/-- A state in which the player unit is flagged defending. -/
def exFlaggedState : BattleState := { exState with defending := ["p1"] }

/-- Witness for C8 at a concrete state: after a hit lands on the
flagged unit, its membership in the defending set is equivalent to a
falsehood. -/
theorem C8_defending_consumed_witness :
    ("p1" ∈ (applyDamage "p1" 3 exFlaggedState).defending ↔
      ("p1" ∈ exFlaggedState.defending ∧ "p1" ≠ "p1")) :=
  (C8_defending_consumed exFlaggedState "p1" 3).2 "p1"
